import Mathlib

/-!
Verification of the surveyqa report generator (src/py/surveyqa).

The development shallowly embeds the night-linkage computation
(`write_night_linkage_and_calendar` in core.py), the directory-scan
filename recovery, the hour-angle derivation and the `makeplots`
driver, and proves the testable properties stated for them.

Python floats are modelled as exact rationals; Python strings as Lean
`String`; the output directory as the list of filenames it contains.
-/

namespace SurveyQA

/-! ## Definitions: night linkage (core.py lines 102-160) -/

/-- `"night-" + key + ".html"`, the night-page filename / href convention
used throughout core.py (lines 137-154). -/
def pageHref (night : String) : String := "night-" ++ night ++ ".html"

/-- Embedding of `re.match("night-[0-9]+.html", filename)` restricted to the
part after the literal `"night-"` prefix and its mandatory first digit:
matches `[0-9]*` followed by `.` (any single character; filenames contain no
newline) followed by the literal `html`, as a prefix of the remaining
characters.  `re.match` anchors at the start of the string only, so trailing
characters after `html` are accepted. -/
def matchTail : List Char → Bool
  | [] => false
  | c :: rest => (['h', 't', 'm', 'l'].isPrefixOf rest) || (c.isDigit && matchTail rest)

/-- Embedding of `regex.match(filename)` with
`regex = re.compile("night-[0-9]+.html")` (core.py lines 126-127):
the literal prefix `night-`, then at least one digit, then any one
character, then the literal `html`; anchored at the start only. -/
def nightRegexMatch (s : String) : Bool :=
  match s.data with
  | 'n' :: 'i' :: 'g' :: 'h' :: 't' :: '-' :: c :: rest => c.isDigit && matchTail rest
  | _ => false

/-- Embedding of the slice `i[6:14]` (core.py line 128): characters 6..13
(0-based) of the filename, clamped like a Python slice. -/
def extractKey (s : String) : String := String.mk ((s.data.drop 6).take 8)

/-- The night keys recovered from the output directory listing
(core.py lines 126-128): keep the filenames accepted by the regex and
slice out characters 6..13 of each. -/
def recoveredKeys (listing : List String) : List String :=
  (listing.filter nightRegexMatch).map extractKey

/-- Embedding of `list(dict.fromkeys(f))` (core.py line 130): remove
duplicates keeping the first occurrence of each key, preserving order
(an element survives at the position of its first occurrence). -/
def dedupKeepFirst : List String → List String
  | [] => []
  | x :: xs => x :: (dedupKeepFirst xs).filter (fun y => y ≠ x)

/-- Kernel-computable lexicographic comparison of char lists, agreeing
with code-point order, which is how Python compares strings. -/
def charsLt : List Char → List Char → Bool
  | [], [] => false
  | [], _ :: _ => true
  | _ :: _, [] => false
  | a :: as, b :: bs => decide (a < b) || (decide (a = b) && charsLt as bs)

/-- Kernel-computable string `≤` (Python string comparison; proved below
to agree with the `String` linear order). -/
def strLe (a b : String) : Bool := ! charsLt b.data a.data

/-- Insertion of one string into an ascending list. -/
def orderedInsert (a : String) : List String → List String
  | [] => [a]
  | b :: l => if strLe a b then a :: b :: l else b :: orderedInsert a l

/-- Embedding of `f.sort()` (core.py line 131): ascending lexicographic
sort.  String comparison-equality coincides with equality, so every
correct sort of a string list produces this list; insertion sort is used
as the executable model. -/
def pySort : List String → List String
  | [] => []
  | a :: l => orderedInsert a (pySort l)

/-- Decidable ascending-sortedness (strict) of a string list, used to
evaluate sortedness hypotheses on concrete lists. -/
def strSortedLt : List String → Bool
  | [] => true
  | [_] => true
  | a :: b :: rest => charsLt a.data b.data && strSortedLt (b :: rest)

/-- The final night list `f` of `write_night_linkage_and_calendar`
(core.py lines 119-131), as a function of the output directory listing,
the `nights` argument and the `subset` flag.  When `subset` is false the
directory is never scanned and `f` is the `nights` list unchanged. -/
def computeF (listing nights : List String) (subset : Bool) : List String :=
  if subset then pySort (dedupKeepFirst (nights ++ recoveredKeys listing))
  else nights

/-- One per-night record of the linkage object: the `prev` and `next`
fields, each either an href or the sentinel `"none"`. -/
structure LinkEntry where
  prev : String
  next : String
deriving DecidableEq

/-- The `inner_dict` built for index `i` of `f` (core.py lines 141-153). -/
def mkEntry (f : List String) (i : Nat) : LinkEntry :=
  if f.length = 1 then ⟨"none", "none"⟩
  else if i = 0 then ⟨"none", pageHref (f.getD (i + 1) "")⟩
  else if i = f.length - 1 then ⟨pageHref (f.getD (i - 1) ""), "none"⟩
  else ⟨pageHref (f.getD (i - 1) ""), pageHref (f.getD (i + 1) "")⟩

/-- The `file_js` dict (core.py lines 136-154): insertion-ordered keys
`"first"`, `"last"`, then one `"n" + f[i]` entry per index of `f`. -/
structure LinkageResult where
  first : String
  last : String
  entries : List (String × LinkEntry)
deriving DecidableEq

/-- Building `file_js` from the final list `f` (core.py lines 136-154).
Python raises `IndexError` at `f[0]` when `f` is empty, modelled as
`none`. -/
def linkage (f : List String) : Option LinkageResult :=
  if f.isEmpty then none
  else some
    { first := pageHref (f.getD 0 "")
    , last := pageHref (f.getD (f.length - 1) "")
    , entries := (List.range f.length).map (fun i => ("n" ++ f.getD i "", mkEntry f i)) }

/-- JSON serialization of a string with no escape-worthy characters
(night keys are digits). -/
def jsonStr (s : String) : String := "\"" ++ s ++ "\""

/-- `json.dumps` of one `inner_dict` with the default separators. -/
def entryJson (e : LinkEntry) : String :=
  "\x7b\"prev\": " ++ jsonStr e.prev ++ ", \"next\": " ++ jsonStr e.next ++ "\x7d"

/-- `json.dumps(file_js)` with the default separators, preserving the
insertion order of the dict. -/
def linkageJson (r : LinkageResult) : String :=
  "\x7b\"first\": " ++ jsonStr r.first ++ ", \"last\": " ++ jsonStr r.last ++
    String.join (r.entries.map (fun p => ", " ++ jsonStr p.1 ++ ": " ++ entryJson p.2)) ++
    "\x7d"

/-- The bytes written to `linking.js`
(core.py line 158: `"get_linking_json_dict({})".format(json.dumps(file_js))`). -/
def linkingContent (r : LinkageResult) : String :=
  "get_linking_json_dict(" ++ linkageJson r ++ ")"

/-- Whole-call model of `write_night_linkage_and_calendar` at the
file-system level: given the directory listing before the call, returns
the listing after the call (the call writes `calendar.html` and
`linking.js` into the directory) together with the bytes written to
`linking.js`; `none` models the `IndexError` on an empty final list. -/
def writeNightLinkage (listing nights : List String) (subset : Bool) :
    Option (List String × String) :=
  (linkage (computeF listing nights subset)).map
    (fun r => (listing ++ ["calendar.html", "linking.js"], linkingContent r))

/-- `os.walk` swallows read errors (`onerror=None`), so a directory that
cannot be listed (missing, unreadable) yields no filenames at all;
core.py lines 122-125 take only the first level of the walk.  `none`
models a failed listing. -/
def walkFiles : Option (List String) → List String
  | none => []
  | some l => l

/-! ## Definitions: hour-angle derivation (core.py lines 182-193) -/

/-- Python `x % y` for a positive divisor: the representative of `x`
modulo `y` in `[0, y)`. -/
def pymod (x y : ℚ) : ℚ := x - y * ⌊x / y⌋

/-- `LST = (168.86072948111115 + 360.98564736628623 * (MJD - 51544.5)) % 360`
(core.py lines 182-183), on exact rationals. -/
def lstOf (mjd : ℚ) : ℚ :=
  pymod (168.86072948111115 + 360.98564736628623 * (mjd - 51544.5)) 360

/-- `change_range` (core.py lines 186-191): one piecewise normalization
step. -/
def change_range (i : ℚ) : ℚ :=
  if i > 180 then i - 360
  else if i < -180 then 360 + i
  else i

/-- The derived HOURANGLE value of one exposure row: `LST - RA` followed
by `change_range` (core.py lines 184 and 193). -/
def hourAngleOf (mjd ra : ℚ) : ℚ := change_range (lstOf mjd - ra)

/-- The columns of the exposures table relevant to the claims.  The
HOURANGLE column is optional: absent until the derivation step stores
it. -/
structure ExpTable where
  mjd : List ℚ
  ra : List ℚ
  night : List String
  hourangle : Option (List ℚ)
deriving DecidableEq

/-- The column assignments `exposures["HOURANGLE"] = ...` (core.py lines
184 and 193): the HOURANGLE column is stored into the table; all other
columns are untouched. -/
def deriveHourangle (t : ExpTable) : ExpTable :=
  { t with hourangle := some ((t.mjd.zip t.ra).map fun p => hourAngleOf p.1 p.2) }

/-- The exposures table the caller observes after `makeplots` has run its
derivation step.  astropy tables are passed by reference and column
assignment stores into the caller's object, so this is the mutated
table, not the original. -/
def makeplotsCallerTable (t : ExpTable) : ExpTable := deriveHourangle t

/-! ## Definitions: the makeplots driver (core.py lines 162-219) -/

/-- Row filtering `exposures[[x in nights for x in exposures['NIGHT']]]`
(core.py line 198), restricted to the NIGHT column: Python list
membership with exact string equality.  The `nights` argument has
already been coerced elementwise with `str` (line 197), modelled as the
identity because nights are modelled as strings. -/
def filteredNights (expNight : List String) (ns : List String) : List String :=
  expNight.filter (fun x => ns.contains x)

/-- `sorted(set(l))` (core.py lines 211 and 216): the unique ascending
duplicate-free list with the same members as `l`. -/
def sortedSet (l : List String) : List String := pySort (dedupKeepFirst l)

/-- `nights_sub = sorted(set(exposures_sub['NIGHT']))` (core.py line 211),
where `exposures_sub` is the whole table when no explicit `nights`
argument was given and the filtered table otherwise (lines 195-198). -/
def nightsSub (expNight : List String) (nights : Option (List String)) : List String :=
  match nights with
  | none => sortedSet expNight
  | some ns => sortedSet (filteredNights expNight ns)

/-- The kinds of filesystem writes `makeplots` can perform. -/
inductive WriteEvent where
  | assetFiles
  | summaryPage
  | calendarPage
  | linkingFile
  | nightPage (night : String)
deriving DecidableEq

/-- `check_offline_files` (core.py lines 20-100, called at line 180):
when every expected asset file is already present it only prints;
otherwise it recreates the asset folder and writes the asset files
(downloads and copies, lines 50-80). -/
def checkOfflineWrites (assetsPresent : Bool) : List WriteEvent :=
  if assetsPresent then [] else [WriteEvent.assetFiles]

/-- The filesystem writes of one `makeplots` call, in program order, with
the error it raises, if any (core.py lines 162-219).  The asset check
runs first (line 180); the HOURANGLE derivation and the night filtering
(lines 182-198) write no files; the `show_summary` dispatch (lines
204-209) writes the summary page or raises `ValueError`; then
`write_night_linkage_and_calendar` writes `calendar.html` and
`linking.js` (line 212, with `IndexError` when the night list is empty),
and the per-night renders write one page per night in scope (line
216). -/
def makeplotsWrites (assetsPresent : Bool) (expNight : List String)
    (show_summary : String) (nights : Option (List String)) :
    List WriteEvent × Option String :=
  let w0 := checkOfflineWrites assetsPresent
  let summaryW : Option (List WriteEvent) :=
    if show_summary = "subset" then some [WriteEvent.summaryPage]
    else if show_summary = "all" then some [WriteEvent.summaryPage]
    else if show_summary ≠ "no" then none
    else some []
  match summaryW with
  | none => (w0, some "ValueError: show_summary should be all, subset, or no")
  | some w1 =>
    let nsub := nightsSub expNight nights
    if nsub.isEmpty then (w0 ++ w1 ++ [WriteEvent.calendarPage], some "IndexError")
    else (w0 ++ w1 ++ [WriteEvent.calendarPage, WriteEvent.linkingFile]
            ++ nsub.map WriteEvent.nightPage, none)

/-- A concrete three-column exposures table without a HOURANGLE column,
as handed to `makeplots` by a caller. -/
def ex0 : ExpTable :=
  { mjd := [51544.5], ra := [90], night := ["20200101"], hourangle := none }

/-! ## Order bridging lemmas -/

theorem charsLt_iff :
    ∀ as bs : List Char, charsLt as bs = true ↔ List.Lex (· < ·) as bs := by
  intro as
  induction as with
  | nil =>
    intro bs
    cases bs with
    | nil => simp [charsLt]
    | cons b bs => simp [charsLt]; exact List.Lex.nil
  | cons a as ih =>
    intro bs
    cases bs with
    | nil =>
      simp only [charsLt, Bool.false_eq_true, false_iff]
      intro h; cases h
    | cons b bs =>
      simp only [charsLt, Bool.or_eq_true, Bool.and_eq_true, decide_eq_true_eq, ih bs]
      constructor
      · rintro (hab | ⟨rfl, h⟩)
        · exact List.Lex.rel hab
        · exact List.Lex.cons h
      · intro h
        cases h with
        | cons h => exact Or.inr ⟨rfl, h⟩
        | rel hab => exact Or.inl hab

theorem strLe_iff (a b : String) : strLe a b = true ↔ a ≤ b := by
  have hle : a ≤ b ↔ ¬ b < a := Iff.rfl
  have hlt : b < a ↔ List.Lex (· < ·) b.data a.data := String.lt_iff_toList_lt
  rw [hle, hlt, ← charsLt_iff]
  simp [strLe]

theorem strLt_iff (a b : String) : charsLt a.data b.data = true ↔ a < b :=
  (charsLt_iff _ _).trans String.lt_iff_toList_lt.symm

theorem strSortedLt_iff : ∀ l : List String, strSortedLt l = true ↔ l.Sorted (· < ·) := by
  intro l
  induction l with
  | nil => simp [strSortedLt]
  | cons a l ih =>
    cases l with
    | nil => simp [strSortedLt]
    | cons b l =>
      rw [List.sorted_cons_cons, ← ih, strSortedLt]
      simp [strLt_iff]

theorem orderedInsert_eq (a : String) :
    ∀ l : List String, orderedInsert a l = List.orderedInsert (· ≤ ·) a l := by
  intro l
  induction l with
  | nil => rfl
  | cons b l ih =>
    simp only [orderedInsert, List.orderedInsert, strLe_iff, ih]

theorem pySort_eq : ∀ l : List String, pySort l = List.insertionSort (· ≤ ·) l := by
  intro l
  induction l with
  | nil => rfl
  | cons a l ih => simp only [pySort, List.insertionSort, orderedInsert_eq, ih]

theorem pySort_perm (l : List String) : (pySort l).Perm l := by
  rw [pySort_eq]; exact List.perm_insertionSort _ l

theorem pySort_sorted (l : List String) : (pySort l).Sorted (· ≤ ·) := by
  rw [pySort_eq]; exact List.sorted_insertionSort _ l

theorem mem_pySort {x : String} {l : List String} : x ∈ pySort l ↔ x ∈ l :=
  (pySort_perm l).mem_iff

theorem nodup_pySort {l : List String} (h : l.Nodup) : (pySort l).Nodup :=
  ((pySort_perm l).nodup_iff).mpr h

theorem mem_dedupKeepFirst {x : String} :
    ∀ {l : List String}, x ∈ dedupKeepFirst l ↔ x ∈ l := by
  intro l
  induction l with
  | nil => simp [dedupKeepFirst]
  | cons a l ih =>
    simp only [dedupKeepFirst, List.mem_cons, List.mem_filter, decide_eq_true_eq]
    constructor
    · rintro (rfl | ⟨h, _⟩)
      · exact Or.inl rfl
      · exact Or.inr (ih.mp h)
    · rintro (rfl | h)
      · exact Or.inl rfl
      · by_cases hxa : x = a
        · exact Or.inl hxa
        · exact Or.inr ⟨ih.mpr h, hxa⟩

theorem nodup_dedupKeepFirst : ∀ l : List String, (dedupKeepFirst l).Nodup := by
  intro l
  induction l with
  | nil => simp [dedupKeepFirst]
  | cons a l ih =>
    rw [dedupKeepFirst, List.nodup_cons]
    refine ⟨fun hmem => ?_, ih.filter _⟩
    have := (List.mem_filter.mp hmem).2
    simp at this

/-! ## Linkage structure lemmas -/

theorem linkage_ne_nil {f : List String} (h : f ≠ []) :
    linkage f = some
      { first := pageHref (f.getD 0 "")
      , last := pageHref (f.getD (f.length - 1) "")
      , entries := (List.range f.length).map (fun i => ("n" ++ f.getD i "", mkEntry f i)) } := by
  simp [linkage, h]

theorem range_map_getD {α β : Type} (g : α → β) (d : α) :
    ∀ l : List α, (List.range l.length).map (fun i => g (l.getD i d)) = l.map g := by
  intro l
  induction l with
  | nil => simp
  | cons a l ih =>
    rw [List.length_cons, List.range_succ_eq_map]
    simp only [List.map_cons, List.map_map, List.getD_cons_zero, List.map_cons]
    refine congrArg (g a :: ·) ?_
    rw [← ih]
    rfl

theorem linkage_keys (f : List String) :
    ((List.range f.length).map (fun i => ("n" ++ f.getD i "", mkEntry f i))).map Prod.fst
      = f.map (fun x => "n" ++ x) := by
  rw [List.map_map]
  exact range_map_getD (fun x => "n" ++ x) "" f

theorem linkage_entries_getD {f : List String} {i : Nat} (h : i < f.length)
    (dflt : String × LinkEntry) :
    ((List.range f.length).map (fun j => ("n" ++ f.getD j "", mkEntry f j))).getD i dflt
      = ("n" ++ f.getD i "", mkEntry f i) := by
  rw [List.getD_eq_getElem?_getD, List.getElem?_map, List.getElem?_range h]
  rfl

/-! ## Claim theorems -/

/-- **C1**: for every non-empty, ascending-sorted, duplicate-free final
night list `f` of length `n` handed to the linkage computation, the
persisted linkage object has exactly `n` per-night entries keyed
`"n" + f[i]`, plus global keys `first = "night-"+f[0]+".html"` and
`last = "night-"+f[n-1]+".html"`; the entry for `f[0]` has
`prev = "none"`, the entry for `f[n-1]` has `next = "none"`, interior
entries point at their neighbours, and for `n = 1` both sentinels are
`"none"` (no self-referencing links). -/
theorem C1_linkage_structure (f : List String) (hne : f ≠ [])
    (_hsorted : f.Sorted (· < ·)) :
    ∃ r, linkage f = some r ∧
      r.entries.length = f.length ∧
      r.entries.map Prod.fst = f.map (fun x => "n" ++ x) ∧
      r.first = pageHref (f.getD 0 "") ∧
      r.last = pageHref (f.getD (f.length - 1) "") ∧
      (f.length = 1 →
        r.entries.getD 0 ("", ⟨"", ""⟩) = ("n" ++ f.getD 0 "", ⟨"none", "none"⟩)) ∧
      (1 < f.length →
        (r.entries.getD 0 ("", ⟨"", ""⟩)).2 = ⟨"none", pageHref (f.getD 1 "")⟩ ∧
        (r.entries.getD (f.length - 1) ("", ⟨"", ""⟩)).2
          = ⟨pageHref (f.getD (f.length - 2) ""), "none"⟩) ∧
      ∀ i, 0 < i → i < f.length - 1 →
        (r.entries.getD i ("", ⟨"", ""⟩)).2
          = ⟨pageHref (f.getD (i - 1) ""), pageHref (f.getD (i + 1) "")⟩ := by
  refine ⟨_, linkage_ne_nil hne, by simp, linkage_keys f, rfl, rfl, ?_, ?_, ?_⟩
  · intro h1
    rw [linkage_entries_getD (by omega)]
    simp [mkEntry, h1]
  · intro h2
    constructor
    · rw [linkage_entries_getD (by omega)]
      simp [mkEntry, show f.length ≠ 1 by omega]
    · rw [linkage_entries_getD (by omega)]
      have hn1 : f.length ≠ 1 := by omega
      have hne0 : f.length - 1 ≠ 0 := by omega
      have hsub : f.length - 1 - 1 = f.length - 2 := by omega
      simp [mkEntry, hn1, hne0, hsub]
  · intro i h0 hlt
    rw [linkage_entries_getD (by omega)]
    simp [mkEntry, show f.length ≠ 1 by omega, show i ≠ 0 by omega,
      show i ≠ f.length - 1 by omega]

/-- Witness for C1 at the concrete list `["20200101", "20200102"]`. -/
theorem C1_linkage_structure_witness :
    ((["20200101", "20200102"] : List String) ≠ [] ∧
      (["20200101", "20200102"] : List String).Sorted (· < ·)) ∧
    (∃ r, linkage ["20200101", "20200102"] = some r ∧
      r.entries.length = (["20200101", "20200102"] : List String).length ∧
      r.entries.map Prod.fst
        = (["20200101", "20200102"] : List String).map (fun x => "n" ++ x) ∧
      r.first = pageHref ((["20200101", "20200102"] : List String).getD 0 "") ∧
      r.last = pageHref ((["20200101", "20200102"] : List String).getD
        ((["20200101", "20200102"] : List String).length - 1) "") ∧
      ((["20200101", "20200102"] : List String).length = 1 →
        r.entries.getD 0 ("", ⟨"", ""⟩)
          = ("n" ++ (["20200101", "20200102"] : List String).getD 0 "", ⟨"none", "none"⟩)) ∧
      (1 < (["20200101", "20200102"] : List String).length →
        (r.entries.getD 0 ("", ⟨"", ""⟩)).2
          = ⟨"none", pageHref ((["20200101", "20200102"] : List String).getD 1 "")⟩ ∧
        (r.entries.getD ((["20200101", "20200102"] : List String).length - 1)
            ("", ⟨"", ""⟩)).2
          = ⟨pageHref ((["20200101", "20200102"] : List String).getD
              ((["20200101", "20200102"] : List String).length - 2) ""), "none"⟩) ∧
      ∀ i, 0 < i → i < (["20200101", "20200102"] : List String).length - 1 →
        (r.entries.getD i ("", ⟨"", ""⟩)).2
          = ⟨pageHref ((["20200101", "20200102"] : List String).getD (i - 1) ""),
             pageHref ((["20200101", "20200102"] : List String).getD (i + 1) "")⟩) :=
  ⟨⟨by decide, (strSortedLt_iff _).mp (by decide)⟩,
    C1_linkage_structure ["20200101", "20200102"] (by decide)
      ((strSortedLt_iff _).mp (by decide))⟩

/-- **C2**: in a subset run, the final list is the deduplicated,
ascending-sorted union of the in-scope nights with the keys recovered
from the directory listing; concretely, in-scope
`["20200101", "20200103"]` merged with on-disk pages for
`["20200102", "20200104"]` gives
`["20200101", "20200102", "20200103", "20200104"]`, and the entry for
`"20200102"` links `prev` to `night-20200101.html` and `next` to
`night-20200103.html`. -/
theorem C2_subset_union (listing nights : List String) :
    (computeF listing nights true).Sorted (· ≤ ·) ∧
    (computeF listing nights true).Nodup ∧
    (∀ x, x ∈ computeF listing nights true ↔ x ∈ nights ∨ x ∈ recoveredKeys listing) ∧
    computeF ["night-20200102.html", "night-20200104.html"] ["20200101", "20200103"] true
      = ["20200101", "20200102", "20200103", "20200104"] ∧
    linkage ["20200101", "20200102", "20200103", "20200104"]
      = some
        { first := "night-20200101.html"
        , last := "night-20200104.html"
        , entries :=
            [ ("n20200101", ⟨"none", "night-20200102.html"⟩)
            , ("n20200102", ⟨"night-20200101.html", "night-20200103.html"⟩)
            , ("n20200103", ⟨"night-20200102.html", "night-20200104.html"⟩)
            , ("n20200104", ⟨"night-20200103.html", "none"⟩) ] } := by
  refine ⟨?_, ?_, ?_, by decide, by decide⟩
  · simp only [computeF, if_pos]
    exact pySort_sorted _
  · simp only [computeF, if_pos]
    exact nodup_pySort (nodup_dedupKeepFirst _)
  · intro x
    simp only [computeF, if_pos]
    rw [mem_pySort, mem_dedupKeepFirst, List.mem_append]

/-- **C3**: when the run is not a subset run, the linkage computation
never consults the directory listing: the final list equals the
in-scope list for every two directory states, and the linkage object is
the same; concretely, in-scope `["20200105"]` with on-disk pages for
other nights yields `f = ["20200105"]` only. -/
theorem C3_nonsubset_independent (nights listing₁ listing₂ : List String) :
    computeF listing₁ nights false = nights ∧
    computeF listing₁ nights false = computeF listing₂ nights false ∧
    linkage (computeF listing₁ nights false) = linkage (computeF listing₂ nights false) ∧
    computeF ["night-20200101.html", "night-20200102.html"] ["20200105"] false
      = ["20200105"] := by
  refine ⟨rfl, rfl, rfl, rfl⟩

theorem computeF_append_nonmatching (listing nights : List String) (subset : Bool)
    (extra : List String) (hx : ∀ s ∈ extra, nightRegexMatch s = false) :
    computeF (listing ++ extra) nights subset = computeF listing nights subset := by
  cases subset with
  | false => rfl
  | true =>
    simp only [computeF, if_pos]
    have hnil : extra.filter nightRegexMatch = [] := by
      rw [List.filter_eq_nil_iff]
      intro a ha
      simp [hx a ha]
    unfold recoveredKeys
    rw [List.filter_append, hnil, List.append_nil]

/-- **C4**: running the linkage computation a second time with the same
arguments on the directory state left by the first run (whose only
writes are `calendar.html` and `linking.js`, neither of which the night
scan matches) produces byte-identical `linking.js` content. -/
theorem C4_idempotent (listing nights : List String) (subset : Bool)
    (l₁ : List String) (c₁ : String)
    (h : writeNightLinkage listing nights subset = some (l₁, c₁)) :
    ∃ l₂, writeNightLinkage l₁ nights subset = some (l₂, c₁) := by
  have hkey : computeF (listing ++ ["calendar.html", "linking.js"]) nights subset
      = computeF listing nights subset :=
    computeF_append_nonmatching listing nights subset _ (by decide)
  unfold writeNightLinkage at h ⊢
  cases hl : linkage (computeF listing nights subset) with
  | none => simp [hl] at h
  | some r =>
    rw [hl] at h
    simp only [Option.map_some', Option.some.injEq, Prod.mk.injEq] at h
    obtain ⟨h1, h2⟩ := h
    subst h1
    subst h2
    rw [hkey, hl]
    exact ⟨_, rfl⟩

/-- Witness for C4 at `listing = []`, `nights = ["20200101"]`,
`subset = false`. -/
theorem C4_idempotent_witness :
    writeNightLinkage [] ["20200101"] false
      = some (["calendar.html", "linking.js"],
          "get_linking_json_dict(\x7b\"first\": \"night-20200101.html\", \"last\": \"night-20200101.html\", \"n20200101\": \x7b\"prev\": \"none\", \"next\": \"none\"\x7d\x7d)") ∧
    ∃ l₂, writeNightLinkage ["calendar.html", "linking.js"] ["20200101"] false
      = some (l₂,
          "get_linking_json_dict(\x7b\"first\": \"night-20200101.html\", \"last\": \"night-20200101.html\", \"n20200101\": \x7b\"prev\": \"none\", \"next\": \"none\"\x7d\x7d)") :=
  ⟨by decide, C4_idempotent [] ["20200101"] false _ _ (by decide)⟩

theorem matchTail_digits_dot_html :
    ∀ d : List Char, (∀ c ∈ d, c.isDigit) →
      matchTail (d ++ ['.', 'h', 't', 'm', 'l']) = true := by
  intro d
  induction d with
  | nil => intro _; decide
  | cons c d ih =>
    intro h
    simp only [List.cons_append, matchTail, Bool.or_eq_true, Bool.and_eq_true]
    right
    exact ⟨h c (by simp), ih (fun x hx => h x (by simp [hx]))⟩

/-- **C6 (amended)**: the directory scan accepts every filename of the
exact form `"night-" + <8-digit key> + ".html"` and recovers the 8-digit
key as the fixed-offset substring at characters 6..13;
`"night-20230615.html"` yields `"20230615"` and `"readme.txt"` is not
matched.  (The acceptance is not exact: the regex is a prefix match with
`[0-9]+` of any positive length and `.` as a wildcard, so some filenames
outside the exact form also match — see the counterexample.) -/
theorem C6_filename_recovery (d : List Char) (hlen : d.length = 8)
    (hdig : ∀ c ∈ d, c.isDigit) :
    nightRegexMatch ("night-" ++ String.mk d ++ ".html") = true ∧
    extractKey ("night-" ++ String.mk d ++ ".html") = String.mk d ∧
    nightRegexMatch "night-20230615.html" = true ∧
    extractKey "night-20230615.html" = "20230615" ∧
    nightRegexMatch "readme.txt" = false := by
  have hdata : ("night-" ++ String.mk d ++ ".html").data
      = 'n' :: 'i' :: 'g' :: 'h' :: 't' :: '-' :: (d ++ ['.', 'h', 't', 'm', 'l']) := by
    simp [String.data_append]
  refine ⟨?_, ?_, by decide, by decide, by decide⟩
  · cases d with
    | nil => simp at hlen
    | cons c d' =>
      have hc : c.isDigit = true := hdig c (by simp)
      have ht := matchTail_digits_dot_html d' (fun x hx => hdig x (by simp [hx]))
      unfold nightRegexMatch
      rw [hdata]
      simp only [List.cons_append]
      simp [hc, ht]
  · rw [extractKey, hdata]
    simp only [List.drop_succ_cons, List.drop_zero]
    rw [← hlen, List.take_left]

/-- Witness for the amended C6 at the key `"20230615"`. -/
theorem C6_filename_recovery_witness :
    ((['2', '0', '2', '3', '0', '6', '1', '5'] : List Char).length = 8 ∧
      ∀ c ∈ (['2', '0', '2', '3', '0', '6', '1', '5'] : List Char), c.isDigit) ∧
    (nightRegexMatch
        ("night-" ++ String.mk ['2', '0', '2', '3', '0', '6', '1', '5'] ++ ".html") = true ∧
      extractKey
        ("night-" ++ String.mk ['2', '0', '2', '3', '0', '6', '1', '5'] ++ ".html")
        = String.mk ['2', '0', '2', '3', '0', '6', '1', '5'] ∧
      nightRegexMatch "night-20230615.html" = true ∧
      extractKey "night-20230615.html" = "20230615" ∧
      nightRegexMatch "readme.txt" = false) :=
  ⟨⟨by decide, by decide⟩, C6_filename_recovery _ (by decide) (by decide)⟩

/-- **C6 counterexample**: the scan does not accept *exactly* the
8-digit pattern.  Every filename of the exact form
`"night-" + <8-digit key> + ".html"` has length 19, but
`"night-123.html"` (length 14, hence outside the exact pattern) is
matched by the scan and contributes the recovered key `"123.html"`. -/
theorem C6_exact_pattern_cex :
    nightRegexMatch "night-123.html" = true ∧
    extractKey "night-123.html" = "123.html" ∧
    recoveredKeys ["night-123.html"] = ["123.html"] ∧
    ("night-123.html" : String).length = 14 := by decide

/-- **C8**: in subset mode, a failed directory listing is treated as an
empty pre-existing page set: the run still succeeds and the linkage is
built from the in-scope nights alone. -/
theorem C8_walk_failure_recovered (nights : List String) (hne : nights ≠ []) :
    computeF (walkFiles none) nights true = pySort (dedupKeepFirst nights) ∧
    (∀ x, x ∈ computeF (walkFiles none) nights true ↔ x ∈ nights) ∧
    ∃ r, linkage (computeF (walkFiles none) nights true) = some r ∧
      r.entries.map Prod.fst = (pySort (dedupKeepFirst nights)).map (fun x => "n" ++ x) := by
  have hF : computeF (walkFiles none) nights true = pySort (dedupKeepFirst nights) := by
    simp [computeF, walkFiles, recoveredKeys]
  have hmem : ∀ x, x ∈ computeF (walkFiles none) nights true ↔ x ∈ nights := by
    intro x
    rw [hF, mem_pySort, mem_dedupKeepFirst]
  refine ⟨hF, hmem, ?_⟩
  obtain ⟨x, hx⟩ := List.exists_mem_of_ne_nil nights hne
  have hfne : computeF (walkFiles none) nights true ≠ [] :=
    List.ne_nil_of_mem ((hmem x).mpr hx)
  refine ⟨_, linkage_ne_nil hfne, ?_⟩
  rw [hF] at *
  exact linkage_keys _

/-- Witness for C8 at `nights = ["20200101"]`. -/
theorem C8_walk_failure_recovered_witness :
    (["20200101"] : List String) ≠ [] ∧
    (computeF (walkFiles none) ["20200101"] true
        = pySort (dedupKeepFirst ["20200101"]) ∧
      (∀ x, x ∈ computeF (walkFiles none) ["20200101"] true ↔ x ∈ ["20200101"]) ∧
      ∃ r, linkage (computeF (walkFiles none) ["20200101"] true) = some r ∧
        r.entries.map Prod.fst
          = (pySort (dedupKeepFirst ["20200101"])).map (fun x => "n" ++ x)) :=
  ⟨by decide, C8_walk_failure_recovered ["20200101"] (by decide)⟩

/-- **C5 counterexample**: with the offline asset files absent, a run
with `show_summary = "bogus"` does fail with `ValueError`, but the
asset-provisioning step (which `makeplots` runs first, before the
`show_summary` check) has already written the asset files, so the
rejection does not happen before any file is written. -/
theorem C5_invalid_summary_cex :
    (makeplotsWrites false ["20200101"] "bogus" none).2.isSome = true ∧
    (makeplotsWrites false ["20200101"] "bogus" none).1 = [WriteEvent.assetFiles] ∧
    (makeplotsWrites false ["20200101"] "bogus" none).1 ≠ [] := by decide

/-- **C5 (amended)**: if `show_summary` is none of `"all"`, `"subset"`,
`"no"`, the run fails with `ValueError` and writes no summary page, no
calendar, no linkage file and no night pages — but the rejection comes
after the asset-provisioning step, which writes the asset files when
they are absent.  Only when the asset files are already present does the
run fail without writing anything. -/
theorem C5_invalid_summary_rejects (assetsPresent : Bool) (expNight : List String)
    (nights : Option (List String)) (s : String)
    (h1 : s ≠ "all") (h2 : s ≠ "subset") (h3 : s ≠ "no") :
    makeplotsWrites assetsPresent expNight s nights
      = (checkOfflineWrites assetsPresent,
          some "ValueError: show_summary should be all, subset, or no") ∧
    (assetsPresent = true → (makeplotsWrites assetsPresent expNight s nights).1 = []) := by
  have hw : makeplotsWrites assetsPresent expNight s nights
      = (checkOfflineWrites assetsPresent,
          some "ValueError: show_summary should be all, subset, or no") := by
    simp [makeplotsWrites, h1, h2, h3]
  refine ⟨hw, fun ha => ?_⟩
  rw [hw, ha]
  simp [checkOfflineWrites]

/-- Witness for the amended C5 at `show_summary = "bogus"`. -/
theorem C5_invalid_summary_rejects_witness :
    (("bogus" : String) ≠ "all" ∧ ("bogus" : String) ≠ "subset" ∧
      ("bogus" : String) ≠ "no") ∧
    (makeplotsWrites true ["20200101"] "bogus" none
        = (checkOfflineWrites true,
            some "ValueError: show_summary should be all, subset, or no") ∧
      (true = true → (makeplotsWrites true ["20200101"] "bogus" none).1 = [])) :=
  ⟨⟨by decide, by decide, by decide⟩,
    C5_invalid_summary_rejects true ["20200101"] none "bogus"
      (by decide) (by decide) (by decide)⟩

/-- **C9 counterexample**: the HOURANGLE derivation is not free of
caller-visible effects.  astropy tables are passed by reference and
`exposures["HOURANGLE"] = ...` stores a column into the caller's
object, so after the derivation step the caller's table has gained a
HOURANGLE column it did not have before. -/
theorem C9_derivation_mutates_cex :
    makeplotsCallerTable ex0 ≠ ex0 ∧
    ex0.hourangle = none ∧
    (makeplotsCallerTable ex0).hourangle ≠ none := by
  refine ⟨fun h => ?_, rfl, ?_⟩
  · have := congrArg ExpTable.hourangle h
    simp [makeplotsCallerTable, deriveHourangle, ex0] at this
  · simp [makeplotsCallerTable, deriveHourangle, ex0]

/-- **C9 (amended)**: the derivation is deterministic in the MJD and RA
columns, but it is applied to the caller's table in place: the
caller-visible table afterwards has the HOURANGLE column set to the
derived values, while the MJD, RA and NIGHT columns are unchanged. -/
theorem C9_derivation_frame (t : ExpTable) :
    makeplotsCallerTable t = deriveHourangle t ∧
    (makeplotsCallerTable t).mjd = t.mjd ∧
    (makeplotsCallerTable t).ra = t.ra ∧
    (makeplotsCallerTable t).night = t.night ∧
    (makeplotsCallerTable t).hourangle
      = some ((t.mjd.zip t.ra).map fun p => hourAngleOf p.1 p.2) :=
  ⟨rfl, rfl, rfl, rfl, rfl⟩

theorem pymod_nonneg_lt (x : ℚ) : 0 ≤ pymod x 360 ∧ pymod x 360 < 360 := by
  have h : pymod x 360 = 360 * Int.fract (x / 360) := by
    unfold pymod Int.fract
    field_simp
  constructor
  · rw [h]
    exact mul_nonneg (by norm_num) (Int.fract_nonneg _)
  · rw [h]
    nlinarith [Int.fract_lt_one (x / 360)]

theorem lstOf_bounds (mjd : ℚ) : 0 ≤ lstOf mjd ∧ lstOf mjd < 360 :=
  pymod_nonneg_lt _

theorem change_range_bounds {i : ℚ} (h1 : -360 < i) (h2 : i < 360) :
    -180 ≤ change_range i ∧ change_range i ≤ 180 := by
  unfold change_range
  split_ifs with ha hb <;> constructor <;> linarith

/-- **C7 (amended)**: the derived hour angle is
`change_range(LST - RA)` with
`LST = (168.86072948111115 + 360.98564736628623*(MJD - 51544.5)) mod 360`;
the normalization is the single piecewise step subtracting 360 above
180, adding 360 below −180 and otherwise leaving the value unchanged
(`200 ↦ −160`, `−200 ↦ 160`, `90 ↦ 90`); for any RA in `[0, 360)` the
normalized result lies in the *closed* interval `[−180, 180]` — the
boundary −180 is attainable (see the counterexample), so the half-open
interval `(−180, 180]` of the claim is off by that one point. -/
theorem C7_hourangle (mjd ra : ℚ) (h0 : 0 ≤ ra) (h1 : ra < 360) :
    hourAngleOf mjd ra = change_range (lstOf mjd - ra) ∧
    change_range 200 = -160 ∧
    change_range (-200) = 160 ∧
    change_range 90 = 90 ∧
    -180 ≤ hourAngleOf mjd ra ∧ hourAngleOf mjd ra ≤ 180 := by
  obtain ⟨hl0, hl1⟩ := lstOf_bounds mjd
  have hb := change_range_bounds (i := lstOf mjd - ra) (by linarith) (by linarith)
  exact ⟨rfl, by norm_num [change_range], by norm_num [change_range],
    by norm_num [change_range], hb.1, hb.2⟩

/-- Witness for the amended C7 at `MJD = 51544.5`, `RA = 90`. -/
theorem C7_hourangle_witness :
    ((0 : ℚ) ≤ 90 ∧ (90 : ℚ) < 360) ∧
    (hourAngleOf 51544.5 90 = change_range (lstOf 51544.5 - 90) ∧
      change_range 200 = -160 ∧
      change_range (-200) = 160 ∧
      change_range 90 = 90 ∧
      -180 ≤ hourAngleOf 51544.5 90 ∧ hourAngleOf 51544.5 90 ≤ 180) :=
  ⟨⟨by norm_num, by norm_num⟩, C7_hourangle 51544.5 90 (by norm_num) (by norm_num)⟩

/-- **C7 counterexample**: at `MJD = 51544.5` the LST is exactly
`168.86072948111115`; with `RA = 348.86072948111115` (a valid right
ascension in `[0, 360)`) the raw hour angle is exactly −180, which the
normalization leaves unchanged, so the normalized result is −180 and
does **not** lie in the half-open interval `(−180, 180]` stated by the
claim. -/
theorem C7_boundary_cex :
    lstOf 51544.5 = 168.86072948111115 ∧
    hourAngleOf 51544.5 348.86072948111115 = -180 ∧
    ¬ (-180 < hourAngleOf 51544.5 348.86072948111115) := by
  have harg : (168.86072948111115 + 360.98564736628623 * ((51544.5 : ℚ) - 51544.5))
      = 168.86072948111115 := by norm_num
  have hfl : ⌊(168.86072948111115 : ℚ) / 360⌋ = 0 := by
    rw [Int.floor_eq_zero_iff]
    constructor <;> norm_num
  have hlst : lstOf 51544.5 = 168.86072948111115 := by
    unfold lstOf pymod
    rw [harg, hfl]
    norm_num
  have hval : hourAngleOf 51544.5 348.86072948111115 = -180 := by
    unfold hourAngleOf
    rw [hlst]
    norm_num [change_range]
  exact ⟨hlst, hval, by rw [hval]; norm_num⟩

theorem nkey_inj {u v : String} (h : "n" ++ u = "n" ++ v) : u = v := by
  have hd := congrArg String.data h
  rw [String.data_append, String.data_append] at hd
  have hdata : u.data = v.data := List.append_cancel_left hd
  exact String.ext hdata

theorem mem_nkey_map (w : String) (f : List String) :
    ("n" ++ w) ∈ f.map (fun x => "n" ++ x) ↔ w ∈ f := by
  rw [List.mem_map]
  constructor
  · rintro ⟨x, hx, he⟩
    rwa [nkey_inj he] at hx
  · intro h
    exact ⟨w, h, rfl⟩

/-- **C10**: for a run with an explicit `nights` argument, the set of
nights that receive a rendered night page and are handed to the linkage
as in-scope is exactly the set of distinct NIGHT values of the filtered
exposures table; a requested night `w` with no matching exposure rows
gets no night page, and enters the linkage only if a pre-existing
night-page file for it is recovered from the output directory. -/
theorem C10_explicit_nights (expNight ns listing : List String) (w : String)
    (_hreq : w ∈ ns) (hnorows : w ∉ expNight) :
    (∀ x, x ∈ nightsSub expNight (some ns) ↔ x ∈ filteredNights expNight ns) ∧
    (nightsSub expNight (some ns)).Nodup ∧
    (∀ a : Bool, ∀ x : String,
      WriteEvent.nightPage x ∈ (makeplotsWrites a expNight "no" (some ns)).1
        ↔ x ∈ nightsSub expNight (some ns)) ∧
    w ∉ nightsSub expNight (some ns) ∧
    (w ∈ computeF listing (nightsSub expNight (some ns)) true
      ↔ w ∈ recoveredKeys listing) ∧
    (∀ r, linkage (computeF listing (nightsSub expNight (some ns)) true) = some r →
      (("n" ++ w) ∈ r.entries.map Prod.fst ↔ w ∈ recoveredKeys listing)) := by
  have hmem : ∀ x, x ∈ nightsSub expNight (some ns) ↔ x ∈ filteredNights expNight ns := by
    intro x
    rw [nightsSub, sortedSet, mem_pySort, mem_dedupKeepFirst]
  have hwnot : w ∉ nightsSub expNight (some ns) := by
    rw [hmem w, filteredNights, List.mem_filter]
    rintro ⟨hw, _⟩
    exact hnorows hw
  have hcmem : w ∈ computeF listing (nightsSub expNight (some ns)) true
      ↔ w ∈ recoveredKeys listing := by
    have hcf : computeF listing (nightsSub expNight (some ns)) true
        = pySort (dedupKeepFirst
            (nightsSub expNight (some ns) ++ recoveredKeys listing)) := rfl
    rw [hcf, mem_pySort, mem_dedupKeepFirst, List.mem_append]
    simp [hwnot]
  refine ⟨hmem, nodup_pySort (nodup_dedupKeepFirst _), ?_, hwnot, hcmem, ?_⟩
  · intro a x
    by_cases hemp : (nightsSub expNight (some ns)).isEmpty
    · rw [List.isEmpty_iff] at hemp
      cases a <;>
        simp [makeplotsWrites, checkOfflineWrites, hemp]
    · cases a <;>
        simp [makeplotsWrites, checkOfflineWrites, hemp]
  · intro r hr
    rw [linkage] at hr
    by_cases hemp : (computeF listing (nightsSub expNight (some ns)) true).isEmpty
    · rw [if_pos hemp] at hr
      exact absurd hr (by simp)
    · rw [if_neg hemp] at hr
      obtain rfl := (Option.some.injEq _ _).mp hr
      rw [linkage_keys, mem_nkey_map]
      exact hcmem

/-- Witness for C10: requested night `"20200199"` has no exposure rows. -/
theorem C10_explicit_nights_witness :
    ("20200199" ∈ (["20200101", "20200199"] : List String) ∧
      "20200199" ∉ (["20200101"] : List String)) ∧
    ((∀ x, x ∈ nightsSub ["20200101"] (some ["20200101", "20200199"])
        ↔ x ∈ filteredNights ["20200101"] ["20200101", "20200199"]) ∧
      (nightsSub ["20200101"] (some ["20200101", "20200199"])).Nodup ∧
      (∀ a : Bool, ∀ x : String,
        WriteEvent.nightPage x
            ∈ (makeplotsWrites a ["20200101"] "no" (some ["20200101", "20200199"])).1
          ↔ x ∈ nightsSub ["20200101"] (some ["20200101", "20200199"])) ∧
      "20200199" ∉ nightsSub ["20200101"] (some ["20200101", "20200199"]) ∧
      ("20200199" ∈ computeF []
          (nightsSub ["20200101"] (some ["20200101", "20200199"])) true
        ↔ "20200199" ∈ recoveredKeys []) ∧
      (∀ r, linkage (computeF []
            (nightsSub ["20200101"] (some ["20200101", "20200199"])) true) = some r →
        (("n" ++ "20200199") ∈ r.entries.map Prod.fst
          ↔ "20200199" ∈ recoveredKeys []))) :=
  ⟨⟨by decide, by decide⟩,
    C10_explicit_nights ["20200101"] ["20200101", "20200199"] [] "20200199"
      (by decide) (by decide)⟩

end SurveyQA
